import Mathlib

/-!
Shallow embedding of the grant-dashboard pipeline in `app.py`
(HF_grants_sunburst_streamlit_app).

The program loads a spreadsheet of grant rows, cleans them
(`dropna` over the hierarchy columns plus `Amount`, then keeps `Amount > 0`),
offers program/strategy filters with an `All` sentinel, computes summary
metrics, builds a display table whose `Amount` column is overwritten with a
currency string, and exports that table as CSV.

Modelling conventions:
- a raw spreadsheet row is a record of `Option` fields (missing cell = `none`);
- currency amounts are exact rationals (`Rat`), standing for the numeric
  values pandas holds; `pd.to_numeric` on an already-numeric column is the
  identity in this model;
- pandas boolean-mask filtering is `List.filter`;
- `Series.unique` is first-occurrence deduplication;
- `Series.median` sorts and averages the two middle elements on even length;
- `DataFrame.to_csv(index=False)` is serialization with minimal quoting
  (quote a field iff it contains a comma, a double quote, LF or CR; double
  the quote character inside quoted fields), one `\n` after every row,
  header row first.
-/

/-- One raw spreadsheet row, restricted to the columns the app selects
(`hierarchy_columns + [value_column]` in `app.py`): `Top Level Primary
Program`, `Primary Strategy`, `Organization: Organization Name`,
`Project Title`, `Request: ID`, `Amount`.  A missing cell is `none`. -/
structure RawRecord where
  program : Option String
  strategy : Option String
  organization : Option String
  projectTitle : Option String
  requestId : Option String
  amount : Option Rat
deriving DecidableEq, Repr

/-- The five columns in the source's `hierarchy_columns` list are present.
Note the source list includes `Request: ID`. -/
def hierarchy_complete (r : RawRecord) : Bool :=
  r.program.isSome && r.strategy.isSome && r.organization.isSome &&
    r.projectTitle.isSome && r.requestId.isSome

/-- `dropna(subset=hierarchy_columns + [value_column])` keeps a row iff all
five hierarchy cells and the `Amount` cell are present. -/
def dropna_row (r : RawRecord) : Bool :=
  hierarchy_complete r && r.amount.isSome

/-- The mask `sunburst_data[value_column] > 0`; a missing amount never
compares greater than zero. -/
def amount_positive (r : RawRecord) : Bool :=
  match r.amount with
  | some a => decide (0 < a)
  | none => false

/-- The cleaning step of `app.py` (lines 44-48): select the relevant columns,
drop rows with a missing value in any of the five hierarchy columns or in
`Amount`, then keep only rows with `Amount > 0`. -/
def sunburst_data (raw : List RawRecord) : List RawRecord :=
  (raw.filter dropna_row).filter amount_positive

/-- The row-retention condition actually enforced by the code: all five
hierarchy columns present, amount present and positive. -/
def validForAggregation (r : RawRecord) : Bool :=
  hierarchy_complete r &&
    (match r.amount with
     | some a => decide (0 < a)
     | none => false)

/-- The retention condition as the spec sentence words it: only the four
spec-level hierarchy fields (program, strategy, organization name, project
title) must be present, and the row is removed when the amount is ≤ 0.
Written from the spec's words, to be compared against the code's behaviour. -/
def claimKeep (r : RawRecord) : Bool :=
  r.program.isSome && r.strategy.isSome && r.organization.isSome &&
    r.projectTitle.isSome &&
    (match r.amount with
     | some a => decide (0 < a)
     | none => true)

/-- A cleaned grant record: every retained row has all fields populated, so
downstream stages work with total fields.  Mirrors the spec's `GrantRecord`. -/
structure GrantRecord where
  program : String
  strategy : String
  organization : String
  projectTitle : String
  requestId : String
  amount : Rat
deriving DecidableEq, Repr

def emptyStr : String := ""

/-- Read a cleaned (complete) raw row as a total record; the defaults are
never consulted on rows passing `dropna_row`. -/
def extract (r : RawRecord) : GrantRecord where
  program := r.program.getD emptyStr
  strategy := r.strategy.getD emptyStr
  organization := r.organization.getD emptyStr
  projectTitle := r.projectTitle.getD emptyStr
  requestId := r.requestId.getD emptyStr
  amount := r.amount.getD 0

/-- The sidebar selection pair; the literal string `All` is the sentinel
meaning "no constraint on this dimension". -/
structure FilterSelection where
  selected_program : String
  selected_strategy : String
deriving DecidableEq, Repr

/-- `if selected_program != "All": filtered = filtered[filtered[...] == selected_program]` -/
def program_filter (selected_program : String) (rows : List GrantRecord) :
    List GrantRecord :=
  if selected_program ≠ "All" then
    rows.filter (fun r => r.program == selected_program)
  else rows

/-- `if selected_strategy != "All": filtered = filtered[filtered[...] == selected_strategy]` -/
def strategy_filter (selected_strategy : String) (rows : List GrantRecord) :
    List GrantRecord :=
  if selected_strategy ≠ "All" then
    rows.filter (fun r => r.strategy == selected_strategy)
  else rows

/-- The filter pipeline of `app.py` (lines 78-86): program mask first, then
strategy mask. -/
def filtered_data (rows : List GrantRecord) (sel : FilterSelection) :
    List GrantRecord :=
  strategy_filter sel.selected_strategy
    (program_filter sel.selected_program rows)

/-- `pandas.Series.unique`: deduplication keeping the first occurrence. -/
def uniqueVals : List String → List String
  | [] => []
  | x :: xs => x :: uniqueVals (xs.filter (fun y => y ≠ x))
termination_by l => l.length
decreasing_by
  simp only [List.length_cons]
  exact Nat.lt_succ_of_le (List.length_filter_le _ _)

/-- The strategy options computed in `app.py` (lines 63-66): the unique
strategies of the rows whose program matches the selection, or of all rows
when the selection is `All`. -/
def strategies (rows : List GrantRecord) (selected_program : String) :
    List String :=
  if selected_program ≠ "All" then
    uniqueVals
      ((rows.filter (fun r => r.program == selected_program)).map
        GrantRecord.strategy)
  else
    uniqueVals (rows.map GrantRecord.strategy)

/-! ## Summary metrics (app.py lines 88-162) -/

/-- The `Amount` column of a frame of cleaned records. -/
def amounts (rows : List GrantRecord) : List Rat :=
  rows.map GrantRecord.amount

/-- `total_records = len(filtered_data)` -/
def total_records (rows : List GrantRecord) : Nat := rows.length

/-- `total_amount = filtered_data["Amount"].sum()`; pandas sums an empty
series to `0`. -/
def total_amount (rows : List GrantRecord) : Rat := (amounts rows).sum

/-- Insertion into a sorted list of rationals, ascending. -/
def insertSorted (x : Rat) : List Rat → List Rat
  | [] => [x]
  | y :: ys => if x ≤ y then x :: y :: ys else y :: insertSorted x ys

/-- Ascending sort, used only to take order statistics. -/
def sortAmounts (l : List Rat) : List Rat := l.foldr insertSorted []

/-- `pandas.Series.median` on a nonempty series: the middle element of the
sorted values, or the average of the two middle elements on even length. -/
def medianList (l : List Rat) : Rat :=
  let s := sortAmounts l
  let n := s.length
  if n % 2 = 1 then s.getD (n / 2) 0
  else (s.getD (n / 2 - 1) 0 + s.getD (n / 2) 0) / 2

/-- `pandas.Series.mean` on a nonempty series. -/
def meanList (l : List Rat) : Rat := l.sum / (l.length : Rat)

/-- The value shown in one `st.metric` widget: an integer count, a dollar
figure, or the literal `No Data` placeholder. -/
inductive MetricValue where
  | nat (n : Nat)
  | money (q : Rat)
  | noData
deriving DecidableEq, Repr

/-- The six metric widgets of `app.py` (lines 92-104 and 134-162), in display
order, as label/value pairs.  `Total Records` and `Total Amount` are computed
from the filtered frame; `Median (All Grants)` and `Mean (All Grants)` from
the full cleaned frame; the filtered median and mean fall back to the
`No Data` placeholder when the filtered frame is empty (`median_filtered` /
`mean_filtered = None`). -/
def metricsPanel (rows : List GrantRecord) (sel : FilterSelection) :
    List (String × MetricValue) :=
  let filtered := filtered_data rows sel
  [("Total Records", MetricValue.nat (total_records filtered)),
   ("Total Amount", MetricValue.money (total_amount filtered)),
   ("Median (All Grants)", MetricValue.money (medianList (amounts rows))),
   ("Median (Filtered)",
     if filtered.isEmpty then MetricValue.noData
     else MetricValue.money (medianList (amounts filtered))),
   ("Mean (All Grants)", MetricValue.money (meanList (amounts rows))),
   ("Mean (Filtered)",
     if filtered.isEmpty then MetricValue.noData
     else MetricValue.money (meanList (amounts filtered)))]

/-! ## Display table (app.py lines 106-178) -/

def SALESFORCE_BASE_URL : String :=
  "https://hewlett.lightning.force.com/lightning/r/Request__c/"

/-- The anchor markup of the `Salesforce Link` column (lines 107-110):
the base URL, the request id, a `/view` suffix, the project title as the
link text. -/
def salesforce_link (r : GrantRecord) : String :=
  "<a href=\"" ++ SALESFORCE_BASE_URL ++ r.requestId ++
    "/view\" target=\"_blank\">" ++ r.projectTitle ++ "</a>"

/-- Reversed digit grouping: insert a comma after every three digits,
operating on a least-significant-first digit list. -/
def groupRev : List Char → List Char
  | a :: b :: c :: d :: rest => a :: b :: c :: ',' :: groupRev (d :: rest)
  | l => l

/-- Decimal rendering of a natural number with thousands separators. -/
def commaSep (n : Nat) : String :=
  String.mk ((groupRev (toString n).data.reverse).reverse)

/-- The Python currency rendering applied to `Amount` (lines 138, 145, 148,
157, 160, 169): a dollar sign, thousands separators, exactly two decimals.
Rounding to cents is to the nearest integer number of cents (half rounds up),
standing for the decimal rounding of the format spec. -/
def formatCurrency (q : Rat) : String :=
  let cents : Int := round (q * 100)
  let sign : String := if cents < 0 then "-" else emptyStr
  let n : Nat := cents.natAbs
  let c : Nat := n % 100
  let centsStr : String := if c < 10 then "0" ++ toString c else toString c
  "$" ++ sign ++ commaSep (n / 100) ++ "." ++ centsStr

/-- One row of the rendered/display table after the column reorder (line 166)
and the in-place currency formatting of `Amount` (line 169).  The `Request:
ID` column was dropped (line 113) and `Project Title` survives only inside
the link markup; the numeric amount has been overwritten by its display
string. -/
structure DisplayRow where
  program : String
  strategy : String
  organization : String
  salesforceLink : String
  amount : String
deriving DecidableEq, Repr

/-- Build one display row from a filtered record. -/
def buildDisplayRow (r : GrantRecord) : DisplayRow where
  program := r.program
  strategy := r.strategy
  organization := r.organization
  salesforceLink := salesforce_link r
  amount := formatCurrency r.amount

/-- The display table built from the filtered frame. -/
def buildDisplayTable (rows : List GrantRecord) : List DisplayRow :=
  rows.map buildDisplayRow

/-- `table_columns` (line 165): the column order of the display table and of
the CSV export. -/
def table_columns : List String :=
  ["Top Level Primary Program", "Primary Strategy",
   "Organization: Organization Name", "Salesforce Link", "Amount"]

/-- The cell values of one display row, in `table_columns` order. -/
def displayRowFields (r : DisplayRow) : List String :=
  [r.program, r.strategy, r.organization, r.salesforceLink, r.amount]

/-! ## CSV serialization (app.py line 181, `to_csv(index=False)`) and a CSV
reader used to state the round-trip property. -/

/-- Characters that force a CSV field to be quoted under minimal quoting:
the delimiter, the quote character, LF and CR. -/
def csvSpecial (c : Char) : Bool :=
  c = ',' || c = '"' || c = '\n' || c = '\r'

/-- Body of a quoted CSV field: every quote character is doubled. -/
def escBody : List Char → List Char
  | [] => []
  | c :: rest =>
      if c = '"' then '"' :: '"' :: escBody rest else c :: escBody rest

/-- Minimal quoting of one field: quote it iff it contains a special
character. -/
def escapeChars (l : List Char) : List Char :=
  if l.any csvSpecial then '"' :: (escBody l ++ ['"']) else l

/-- One CSV line (without terminator): the escaped fields joined by commas. -/
def rowChars : List (List Char) → List Char
  | [] => []
  | [f] => escapeChars f
  | f :: fs => escapeChars f ++ ',' :: rowChars fs

/-- A CSV document: every row followed by a line feed. -/
def csvChars : List (List (List Char)) → List Char
  | [] => []
  | r :: rs => rowChars r ++ '\n' :: csvChars rs

/-- `filtered_data.to_csv(index=False)`: header row first, then one line per
display row, fields in `table_columns` order. -/
def to_csv (table : List DisplayRow) : String :=
  String.mk
    (csvChars
      ((table_columns.map String.data) ::
        table.map (fun r => (displayRowFields r).map String.data)))

/-- Read a quoted CSV field after its opening quote; a doubled quote is a
literal quote, a lone quote closes the field. -/
def parseQuoted : List Char → List Char × List Char
  | [] => ([], [])
  | c :: rest =>
      if c = '"' then
        match rest with
        | [] => ([], [])
        | c2 :: rest2 =>
            if c2 = '"' then
              let p := parseQuoted rest2
              ('"' :: p.1, p.2)
            else ([], rest)
      else
        let p := parseQuoted rest
        (c :: p.1, p.2)

/-- Read an unquoted CSV field: everything up to the next comma or line
feed, which is left in the remainder. -/
def parseUnquoted : List Char → List Char × List Char
  | [] => ([], [])
  | c :: rest =>
      if c = ',' || c = '\n' then ([], c :: rest)
      else
        let p := parseUnquoted rest
        (c :: p.1, p.2)

/-- Read one CSV field, quoted or not. -/
def parseField (l : List Char) : List Char × List Char :=
  match l with
  | [] => ([], [])
  | c :: rest => if c = '"' then parseQuoted rest else parseUnquoted (c :: rest)

/-- Read one CSV record: fields separated by commas, terminated by a line
feed or the end of input.  The first argument is recursion fuel, at least
the number of fields. -/
def parseRecord : Nat → List Char → List (List Char) × List Char
  | 0, l => ([], l)
  | fuel + 1, l =>
      let p := parseField l
      match p.2 with
      | [] => ([p.1], [])
      | d :: rest2 =>
          if d = ',' then
            let q := parseRecord fuel rest2
            (p.1 :: q.1, q.2)
          else if d = '\n' then ([p.1], rest2)
          else ([p.1], d :: rest2)

/-- Read all CSV records.  The first argument is recursion fuel, at least
the number of records. -/
def parseRows : Nat → List Char → List (List (List Char))
  | 0, _ => []
  | fuel + 1, l =>
      if l = [] then []
      else
        let p := parseRecord (l.length + 1) l
        p.1 :: parseRows fuel p.2

/-- Parse a CSV document into its rows of fields. -/
def parseCsv (s : String) : List (List String) :=
  (parseRows (s.data.length + 1) s.data).map
    (fun row => row.map (fun f => String.mk f))

/-! ## Whole-app control flow (app.py lines 35-201) -/

/-- One visible output element of the page, in render order. -/
inductive AppOutput where
  | errorMessage (msg : String)
  | warning (msg : String)
  | chart (rows : List GrantRecord)
  | metrics (panel : List (String × MetricValue))
  | table (t : List DisplayRow)
  | downloadButton (csv : String)
  | fileUploader
deriving DecidableEq, Repr

/-- The page produced for one load outcome and one filter selection.
The whole load-and-render block sits in a `try`; any exception is caught
and shown with `st.error` (lines 194-195); an empty cleaned frame shows the
`st.warning` prompt (lines 51-52); otherwise the chart, the six metrics, the
table (rendered twice, lines 175 and 190), and the CSV download button are
emitted.  The file uploader (line 198) renders on every path. -/
def runApp (source : Except String (List RawRecord))
    (sel : FilterSelection) : List AppOutput :=
  (match source with
   | Except.error e =>
       [AppOutput.errorMessage ("Error loading default data: " ++ e)]
   | Except.ok raw =>
       let cleaned := sunburst_data raw
       if cleaned.isEmpty then
         [AppOutput.warning
           ("No default data available to display. Please upload a dataset.")]
       else
         let rows := cleaned.map extract
         let filtered := filtered_data rows sel
         let tbl := buildDisplayTable filtered
         [AppOutput.chart filtered,
          AppOutput.metrics (metricsPanel rows sel),
          AppOutput.table tbl,
          AppOutput.downloadButton (to_csv tbl),
          AppOutput.table tbl]) ++
  [AppOutput.fileUploader]

/-! ## Sample data used by witnesses and counterexamples -/

def r1 : GrantRecord := ⟨"ProgA", "Strat1", "OrgX", "Proj1", "R1", 100⟩

def r2 : GrantRecord := ⟨"ProgB", "Strat1", "OrgZ", "Proj3", "R3", 200⟩

/-- A raw row whose four spec-level hierarchy fields are present and whose
amount is positive, but whose `Request: ID` cell is empty. -/
def rowNoId : RawRecord :=
  ⟨some "ProgA", some "Strat1", some "OrgX", some "Proj1", none, some 100⟩

/-- A raw row with all five hierarchy cells present but no amount. -/
def rowNoAmount : RawRecord :=
  ⟨some "ProgA", some "Strat1", some "OrgX", some "Proj1", some "R1", none⟩

/-- A cleaned record whose program value is the literal sentinel string. -/
def rAll : GrantRecord := ⟨"All", "Strat2", "OrgY", "Proj2", "R2", 50⟩

/-! ## Cleaning (claim C1) -/

theorem amount_and_dropna_eq_valid (r : RawRecord) :
    (amount_positive r && dropna_row r) = validForAggregation r := by
  cases h : r.amount <;>
    simp [amount_positive, dropna_row, validForAggregation, h,
      Bool.and_comm, Bool.and_left_comm, Bool.and_assoc]

theorem sunburst_data_eq_filter (rows : List RawRecord) :
    sunburst_data rows = rows.filter validForAggregation := by
  unfold sunburst_data
  rw [List.filter_filter, funext amount_and_dropna_eq_valid]

/-- Claim C1, counterexample: the claim's retention condition keeps a row
whose four spec-level hierarchy fields are present and whose amount is
positive even if `Request: ID` is missing, and keeps a row whose amount is
merely missing (not ≤ 0); the code's cleaning step removes both. -/
theorem clean_claim_counterexample :
    claimKeep rowNoId = true ∧ claimKeep rowNoAmount = true ∧
    sunburst_data [rowNoId, rowNoAmount] = [] := by decide

/-- Claim C1 (amended): cleaning removes exactly the rows with a missing
value in any of the five columns the code checks (the four hierarchy fields
plus the request identifier) or with a missing or non-positive amount,
preserves every other row unchanged and in order, and is idempotent. -/
theorem clean_removes_exactly_invalid (rows : List RawRecord) :
    sunburst_data rows = rows.filter validForAggregation ∧
    sunburst_data (sunburst_data rows) = sunburst_data rows := by
  refine ⟨sunburst_data_eq_filter rows, ?_⟩
  rw [sunburst_data_eq_filter rows, sunburst_data_eq_filter,
    List.filter_filter]
  simp

/-! ## Filtering (claims C4, C9, C10) -/

/-- Claim C4: the `("All","All")` selection returns the dataset unchanged
(in fact literally equal, hence in particular equal in content). -/
theorem filter_all_all_identity (rows : List GrantRecord) :
    filtered_data rows ⟨"All", "All"⟩ = rows := by
  simp [filtered_data, program_filter, strategy_filter]

theorem program_filter_sublist (s : String) (rows : List GrantRecord) :
    (program_filter s rows).Sublist rows := by
  unfold program_filter
  split
  · exact List.filter_sublist rows
  · exact List.Sublist.refl rows

theorem strategy_filter_sublist (s : String) (rows : List GrantRecord) :
    (strategy_filter s rows).Sublist rows := by
  unfold strategy_filter
  split
  · exact List.filter_sublist rows
  · exact List.Sublist.refl rows

/-- Claim C10: the filtered dataset is a sublist of the input, so every
surviving record appears in its original relative order; filtering never
reorders records. -/
theorem filter_preserves_order (rows : List GrantRecord)
    (sel : FilterSelection) : (filtered_data rows sel).Sublist rows :=
  (strategy_filter_sublist sel.selected_strategy _).trans
    (program_filter_sublist sel.selected_program rows)

/-- Claim C9: selecting the literal string `All` applies no constraint on
that dimension, whatever the data values are; and whenever a record with
program value the literal `All` survives the program filter, the filter was
a no-op, so such a record can never be isolated by the program filter. -/
theorem all_sentinel_no_constraint (rows : List GrantRecord)
    (selP : String) :
    program_filter "All" rows = rows ∧
    strategy_filter "All" rows = rows ∧
    (∀ r, r ∈ program_filter selP rows → r.program = "All" →
      program_filter selP rows = rows) := by
  refine ⟨by simp [program_filter], by simp [strategy_filter], ?_⟩
  intro r hr hprog
  by_cases h : selP = "All"
  · simp [program_filter, h]
  · exfalso
    unfold program_filter at hr
    rw [if_pos h] at hr
    have hmem := (List.mem_filter.mp hr).2
    rw [beq_iff_eq] at hmem
    exact h (hmem ▸ hprog)

theorem all_sentinel_no_constraint_witness :
    program_filter "All" [rAll, r2] = [rAll, r2] :=
  (all_sentinel_no_constraint [rAll, r2] "All").2.2 rAll (by decide)
    (by decide)

/-! ## Strategy options (claim C3) -/

theorem mem_uniqueVals (s : String) (l : List String) :
    s ∈ uniqueVals l ↔ s ∈ l := by
  induction l using uniqueVals.induct with
  | case1 => simp [uniqueVals]
  | case2 x xs ih =>
      rw [uniqueVals]
      by_cases hx : s = x
      · simp [hx]
      · simp only [List.mem_cons, hx, false_or, ih, List.mem_filter]
        simp [hx]

/-- Claim C3: for a selected program `P` other than the sentinel, the
strategy options are exactly the distinct strategies of the records whose
program equals `P`; for the sentinel `All` they are exactly the distinct
strategies of the whole dataset. -/
theorem strategy_options_exact (rows : List GrantRecord) (P : String) :
    (P ≠ "All" →
      ∀ s, s ∈ strategies rows P ↔
        ∃ r, r ∈ rows ∧ r.program = P ∧ r.strategy = s) ∧
    (∀ s, s ∈ strategies rows "All" ↔ ∃ r, r ∈ rows ∧ r.strategy = s) := by
  constructor
  · intro hP s
    unfold strategies
    rw [if_pos hP, mem_uniqueVals]
    simp only [List.mem_map, List.mem_filter, beq_iff_eq]
    constructor
    · rintro ⟨r, ⟨hmem, hprog⟩, hstrat⟩
      exact ⟨r, hmem, hprog, hstrat⟩
    · rintro ⟨r, hmem, hprog, hstrat⟩
      exact ⟨r, ⟨hmem, hprog⟩, hstrat⟩
  · intro s
    unfold strategies
    rw [if_neg (by decide), mem_uniqueVals]
    simp only [List.mem_map]

theorem strategy_options_exact_witness :
    ("Strat1" ∈ strategies [r1, r2] "ProgA" ↔
      ∃ r, r ∈ [r1, r2] ∧ r.program = "ProgA" ∧ r.strategy = "Strat1") :=
  (strategy_options_exact [r1, r2] "ProgA").1 (by decide) "Strat1"

/-! ## Summary statistics (claims C2, C5) -/

/-- Claim C2: when the filtered dataset is empty, the panel shows `0` for the
record count, `0` for the sum of amounts, and the `No Data` placeholder for
the filtered median and mean; the placeholder is a distinguished value,
distinct from every dollar figure and every count. -/
theorem empty_filtered_stats (rows : List GrantRecord)
    (sel : FilterSelection) (h : filtered_data rows sel = []) :
    ("Total Records", MetricValue.nat 0) ∈ metricsPanel rows sel ∧
    ("Total Amount", MetricValue.money 0) ∈ metricsPanel rows sel ∧
    ("Median (Filtered)", MetricValue.noData) ∈ metricsPanel rows sel ∧
    ("Mean (Filtered)", MetricValue.noData) ∈ metricsPanel rows sel ∧
    (∀ q : Rat, MetricValue.noData ≠ MetricValue.money q) ∧
    (∀ n : Nat, MetricValue.noData ≠ MetricValue.nat n) := by
  simp [metricsPanel, h, total_records, total_amount, amounts]

theorem empty_filtered_stats_witness :
    ("Total Records", MetricValue.nat 0) ∈
        metricsPanel [r1] ⟨"ProgB", "All"⟩ ∧
    ("Total Amount", MetricValue.money 0) ∈
        metricsPanel [r1] ⟨"ProgB", "All"⟩ ∧
    ("Median (Filtered)", MetricValue.noData) ∈
        metricsPanel [r1] ⟨"ProgB", "All"⟩ ∧
    ("Mean (Filtered)", MetricValue.noData) ∈
        metricsPanel [r1] ⟨"ProgB", "All"⟩ ∧
    (∀ q : Rat, MetricValue.noData ≠ MetricValue.money q) ∧
    (∀ n : Nat, MetricValue.noData ≠ MetricValue.nat n) :=
  empty_filtered_stats [r1] ⟨"ProgB", "All"⟩ (by decide)

/-- Claim C5, counterexample: with the dataset `[r1, r2]` and the program
filter `ProgA`, the unfiltered record count is `2`, yet no widget of the
metrics panel displays the value `2`: the record count (and likewise the sum)
is computed only on the filtered dataset, not also on the full dataset as the
claim states. -/
theorem stats_both_datasets_counterexample :
    total_records [r1, r2] = 2 ∧
    (∀ p ∈ metricsPanel [r1, r2] ⟨"ProgA", "All"⟩,
      p.2 ≠ MetricValue.nat 2) := by decide

/-- Claim C5 (amended): median and mean are computed independently on the
full cleaned dataset and on the filtered dataset and displayed
simultaneously; record count and sum of amounts are computed and displayed
for the filtered dataset only. -/
theorem stats_displayed_amended (rows : List GrantRecord)
    (sel : FilterSelection) :
    ("Median (All Grants)",
        MetricValue.money (medianList (amounts rows))) ∈
      metricsPanel rows sel ∧
    ("Mean (All Grants)", MetricValue.money (meanList (amounts rows))) ∈
      metricsPanel rows sel ∧
    ("Total Records",
        MetricValue.nat (total_records (filtered_data rows sel))) ∈
      metricsPanel rows sel ∧
    ("Total Amount",
        MetricValue.money (total_amount (filtered_data rows sel))) ∈
      metricsPanel rows sel ∧
    (filtered_data rows sel ≠ [] →
      ("Median (Filtered)",
          MetricValue.money (medianList (amounts (filtered_data rows sel)))) ∈
        metricsPanel rows sel ∧
      ("Mean (Filtered)",
          MetricValue.money (meanList (amounts (filtered_data rows sel)))) ∈
        metricsPanel rows sel) := by
  refine ⟨by simp [metricsPanel], by simp [metricsPanel],
    by simp [metricsPanel], by simp [metricsPanel], ?_⟩
  intro h
  have hne : (filtered_data rows sel).isEmpty = false := by
    cases hfd : filtered_data rows sel with
    | nil => exact absurd hfd h
    | cons a l => simp
  simp [metricsPanel, hne]

theorem stats_displayed_amended_witness :
    ("Median (Filtered)",
        MetricValue.money
          (medianList (amounts (filtered_data [r1, r2] ⟨"ProgA", "All"⟩)))) ∈
      metricsPanel [r1, r2] ⟨"ProgA", "All"⟩ ∧
    ("Mean (Filtered)",
        MetricValue.money
          (meanList (amounts (filtered_data [r1, r2] ⟨"ProgA", "All"⟩)))) ∈
      metricsPanel [r1, r2] ⟨"ProgA", "All"⟩ :=
  (stats_displayed_amended [r1, r2] ⟨"ProgA", "All"⟩).2.2.2.2 (by decide)

/-! ## Display table amount formatting (claim C6) -/

/-- Two records identical except for numeric amounts that round to the same
cent value. -/
def rCentsA : GrantRecord := ⟨"ProgA", "Strat1", "OrgX", "Proj1", "R1",
  1001/1000⟩

def rCentsB : GrantRecord := ⟨"ProgA", "Strat1", "OrgX", "Proj1", "R1",
  1004/1000⟩

/-- Claim C6, counterexample: the table build overwrites the `Amount` column
with its display string, so two datasets with different numeric amounts
produce identical display tables — after the table is built, the underlying
numeric amount is not available from it (no distinct field retains it), and
the `Amount` cell holds the currency string. -/
theorem amount_overwritten_counterexample :
    rCentsA.amount ≠ rCentsB.amount ∧
    buildDisplayTable [rCentsA] = buildDisplayTable [rCentsB] ∧
    (buildDisplayTable [rCentsA]).map DisplayRow.amount = ["$1.00"] := by
  have hA : round ((1001/1000 : Rat) * 100) = 100 := by norm_num [round_eq]
  have hB : round ((1004/1000 : Rat) * 100) = 100 := by norm_num [round_eq]
  refine ⟨by norm_num [rCentsA, rCentsB], ?_, ?_⟩
  · simp only [buildDisplayTable, List.map_cons, List.map_nil,
      buildDisplayRow, rCentsA, rCentsB, formatCurrency, hA]
    rw [show ((1004:Rat)/1000) = ((1004/1000 : Rat)) from rfl]
    rw [hB]
    simp [salesforce_link]
  · simp only [buildDisplayTable, List.map_cons, List.map_nil,
      buildDisplayRow, rCentsA, formatCurrency, hA]
    decide

/-- Claim C6 (amended): the display-table build renders each record's amount
as the locale-formatted currency string, overwriting the `Amount` column in
place; the numeric value is not carried in the display table (all numeric
computation happens on the frames built before the table). -/
theorem display_amount_formatted (rows : List GrantRecord) :
    (buildDisplayTable rows).map DisplayRow.amount =
      rows.map (fun r => formatCurrency r.amount) := by
  rw [buildDisplayTable, List.map_map]
  rfl

/-! ## Load-failure handling (claim C8) -/

/-- Claim C8: when the spreadsheet cannot be parsed, the page consists of a
visible error message carrying the underlying cause followed by the
file-upload control — the error is surfaced rather than swallowed, the
render function still produces a page (non-fatal), and the upload control
for re-trying is present on every path. -/
theorem load_error_surfaced (e : String)
    (source : Except String (List RawRecord)) (sel : FilterSelection) :
    runApp (Except.error e) sel =
      [AppOutput.errorMessage ("Error loading default data: " ++ e),
        AppOutput.fileUploader] ∧
    AppOutput.fileUploader ∈ runApp source sel := by
  refine ⟨rfl, ?_⟩
  unfold runApp
  cases source with
  | error e2 => simp
  | ok raw =>
      by_cases h : (sunburst_data raw).isEmpty <;> simp [h]

/-! ## CSV round trip (claim C7) -/

theorem parseQuoted_cons (c : Char) (rest : List Char) (hc : ¬c = '"') :
    parseQuoted (c :: rest) =
      (c :: (parseQuoted rest).1, (parseQuoted rest).2) := by
  conv_lhs => rw [parseQuoted.eq_def]
  simp [hc]

theorem parseQuoted_escBody (f : List Char) (d : Char) (hd : d ≠ '"')
    (rest : List Char) :
    parseQuoted (escBody f ++ '"' :: d :: rest) = (f, d :: rest) := by
  induction f with
  | nil => simp [escBody, parseQuoted, hd]
  | cons c f ih =>
      by_cases hc : c = '"'
      · subst hc
        simp [escBody, parseQuoted, ih]
      · rw [show escBody (c :: f) = c :: escBody f by simp [escBody, hc]]
        rw [List.cons_append, parseQuoted_cons c _ hc, ih]

theorem parseUnquoted_no_special (f : List Char)
    (hf : f.any csvSpecial = false) (d : Char)
    (hd : d = ',' ∨ d = '\n') (rest : List Char) :
    parseUnquoted (f ++ d :: rest) = (f, d :: rest) := by
  induction f with
  | nil => rcases hd with h | h <;> subst h <;> simp [parseUnquoted]
  | cons c f ih =>
      simp only [List.any_cons, Bool.or_eq_false_iff] at hf
      have hc := hf.1
      simp only [csvSpecial, Bool.or_eq_false_iff, decide_eq_false_iff_not]
        at hc
      simp [parseUnquoted, hc.1.1.1, hc.1.2, ih hf.2]

theorem parseField_escape (f : List Char) (d : Char)
    (hd : d = ',' ∨ d = '\n') (rest : List Char) :
    parseField (escapeChars f ++ d :: rest) = (f, d :: rest) := by
  have hdq : d ≠ '"' := by rcases hd with h | h <;> subst h <;> decide
  unfold escapeChars
  by_cases hq : f.any csvSpecial
  · rw [if_pos hq]
    have hshape : ('"' :: (escBody f ++ ['"'])) ++ d :: rest =
        '"' :: (escBody f ++ '"' :: d :: rest) := by simp
    rw [hshape]
    simp only [parseField, if_pos rfl]
    exact parseQuoted_escBody f d hdq rest
  · rw [if_neg hq]
    rw [Bool.not_eq_true] at hq
    cases f with
    | nil =>
        rcases hd with h | h <;> subst h <;>
          simp [parseField, parseUnquoted]
    | cons c f' =>
        have hc : csvSpecial c = false := by
          simp only [List.any_cons, Bool.or_eq_false_iff] at hq
          exact hq.1
        have hcq : ¬(c = '"') := by
          simp only [csvSpecial, Bool.or_eq_false_iff,
            decide_eq_false_iff_not] at hc
          exact hc.1.1.2
        simp only [List.cons_append, parseField, if_neg hcq]
        exact parseUnquoted_no_special (c :: f') hq d hd rest

theorem parseRecord_succ (fuel : Nat) (l : List Char) :
    parseRecord (fuel + 1) l =
      (match (parseField l).2 with
       | [] => ([(parseField l).1], [])
       | d :: rest2 =>
           if d = ',' then
             ((parseField l).1 :: (parseRecord fuel rest2).1,
               (parseRecord fuel rest2).2)
           else if d = '\n' then ([(parseField l).1], rest2)
           else ([(parseField l).1], d :: rest2)) := by
  rw [parseRecord.eq_def]

theorem parseRecord_rowChars (fs : List (List Char)) :
    ∀ (fuel : Nat) (rest : List Char), fs ≠ [] → fs.length ≤ fuel →
      parseRecord fuel (rowChars fs ++ '\n' :: rest) = (fs, rest) := by
  induction fs with
  | nil => intro fuel rest h _; exact absurd rfl h
  | cons f fs ih =>
      intro fuel rest _ hlen
      obtain ⟨k, rfl⟩ : ∃ k, fuel = k + 1 :=
        ⟨fuel - 1, by simp at hlen; omega⟩
      cases fs with
      | nil =>
          rw [show rowChars [f] = escapeChars f from rfl, parseRecord_succ,
            parseField_escape f '\n' (Or.inr rfl) rest]
          simp
      | cons f2 fs2 =>
          rw [show rowChars (f :: f2 :: fs2) =
                escapeChars f ++ ',' :: rowChars (f2 :: fs2) from rfl]
          rw [List.append_assoc, List.cons_append, parseRecord_succ,
            parseField_escape f ',' (Or.inl rfl)]
          simp [ih k rest (by simp) (by simp at hlen ⊢; omega)]

theorem rowChars_length (fs : List (List Char)) :
    fs.length ≤ (rowChars fs).length + 1 := by
  induction fs with
  | nil => simp [rowChars]
  | cons f fs ih =>
      cases fs with
      | nil => simp [rowChars]
      | cons f2 fs2 =>
          rw [show rowChars (f :: f2 :: fs2) =
                escapeChars f ++ ',' :: rowChars (f2 :: fs2) from rfl]
          simp only [List.length_cons, List.length_append] at ih ⊢
          omega

theorem csvChars_length (rows : List (List (List Char))) :
    rows.length ≤ (csvChars rows).length := by
  induction rows with
  | nil => simp [csvChars]
  | cons r rs ih =>
      rw [show csvChars (r :: rs) = rowChars r ++ '\n' :: csvChars rs
        from rfl]
      simp only [List.length_cons, List.length_append]
      omega

theorem parseRows_csvChars (rows : List (List (List Char))) :
    ∀ fuel : Nat, rows.length < fuel → (∀ r ∈ rows, r ≠ []) →
      parseRows fuel (csvChars rows) = rows := by
  induction rows with
  | nil =>
      intro fuel hf _
      obtain ⟨k, rfl⟩ : ∃ k, fuel = k + 1 := ⟨fuel - 1, by omega⟩
      simp [csvChars, parseRows]
  | cons r rs ih =>
      intro fuel hf hne
      obtain ⟨k, rfl⟩ : ∃ k, fuel = k + 1 := ⟨fuel - 1, by omega⟩
      rw [show csvChars (r :: rs) = rowChars r ++ '\n' :: csvChars rs
        from rfl]
      rw [parseRows]
      rw [if_neg (by simp)]
      have hlen : r.length ≤ (rowChars r ++ '\n' :: csvChars rs).length + 1 := by
        have := rowChars_length r
        simp only [List.length_append, List.length_cons]
        omega
      rw [parseRecord_rowChars r _ (csvChars rs) (hne r (by simp)) hlen]
      show r :: parseRows k (csvChars rs) = r :: rs
      simp only [List.length_cons] at hf
      rw [ih k (by omega) (fun x hx => hne x (by simp [hx]))]

theorem mk_data (s : String) : String.mk s.data = s := rfl

theorem map_mk_map_data (l : List String) :
    (l.map String.data).map (fun f => String.mk f) = l := by
  rw [List.map_map]
  exact List.map_id l

/-- The CSV writer followed by the CSV reader recovers the header and every
row of the display table exactly. -/
theorem parseCsv_to_csv (table : List DisplayRow) :
    parseCsv (to_csv table) =
      table_columns :: table.map displayRowFields := by
  unfold parseCsv to_csv
  rw [show (String.mk (csvChars ((table_columns.map String.data) ::
      table.map (fun r => (displayRowFields r).map String.data)))).data =
    csvChars ((table_columns.map String.data) ::
      table.map (fun r => (displayRowFields r).map String.data)) from rfl]
  rw [parseRows_csvChars _ _ ?hlen ?hne]
  case hlen =>
    have := csvChars_length ((table_columns.map String.data) ::
      table.map (fun r => (displayRowFields r).map String.data))
    omega
  case hne =>
    intro row hrow
    rcases List.mem_cons.mp hrow with h | h
    · subst h; simp [table_columns]
    · obtain ⟨r, _, rfl⟩ := List.mem_map.mp h
      simp [displayRowFields]
  · simp only [List.map_cons, map_mk_map_data, List.map_map]
    refine congrArg _ ?_
    refine List.map_congr_left fun r _ => ?_
    exact map_mk_map_data (displayRowFields r)

/-- Claim C7: the CSV exported for any filtered dataset parses back to a
header row equal to the display table's column order, plus one row per
filtered record; the parsed rows are exactly the display rows (program,
strategy, organization, link-bearing project title, currency-formatted
amount), so the row count and the amount values — recovered as the currency
strings of the filtered records' numeric amounts — round-trip. -/
theorem csv_export_roundtrip (rows : List GrantRecord)
    (sel : FilterSelection) :
    parseCsv (to_csv (buildDisplayTable (filtered_data rows sel))) =
      table_columns ::
        (filtered_data rows sel).map
          (fun r => displayRowFields (buildDisplayRow r)) ∧
    (parseCsv (to_csv (buildDisplayTable (filtered_data rows sel)))).length =
      (filtered_data rows sel).length + 1 ∧
    (parseCsv (to_csv (buildDisplayTable (filtered_data rows sel)))).tail.map
        (fun row => row.getD 4 emptyStr) =
      (filtered_data rows sel).map (fun r => formatCurrency r.amount) := by
  have h := parseCsv_to_csv (buildDisplayTable (filtered_data rows sel))
  refine ⟨?_, ?_, ?_⟩
  · rw [h, buildDisplayTable, List.map_map]
    rfl
  · rw [h]; simp [buildDisplayTable]
  · rw [h]
    simp only [List.tail_cons, buildDisplayTable, List.map_map]
    rfl
